import Mathlib

/-!
Verification development for `ZX3_Downloader.py` (kounch/ZX3_Downloader).

The Python program is embedded shallowly:

* the local filesystem is an association list from paths (lists of segments)
  to file data; file contents are modelled as a byte list together with the
  MD5 digest and byte size that `get_file_hash` / `os.stat` would report,
  and, for zip archives, the list of named entries that `ZipFile` would see;
* the network is a function from URL strings to fetch outcomes
  (success with data, `HTTPError`, or `URLError`);
* each translated function threads the filesystem explicitly and records the
  downloads and archive extractions it performs as a list of events;
* Python exceptions that the source code does not catch are modelled with
  `Except` (e.g. `KeyError` for a missing zip entry in `chk_or_obtain`).

Every definition is translated from the Python source, with the source line
numbers noted in comments.
-/

namespace ZX3

/-! ## Filesystem model -/

abbrev Path := List String

/-- Content of one on-disk file: the bytes, with the MD5 digest that
`get_file_hash` (lines 1139-1151) would compute and the size that `os.stat`
would report. -/
structure Blob where
  hash : String
  size : Nat
  content : List Nat
deriving Repr, DecidableEq

/-- An on-disk file.  `entries` is `some es` when the file is a zip archive
with named members `es` (what `ZipFile`/`is_zipfile` would see), and `none`
for a plain file. -/
structure FileData where
  blob : Blob
  entries : Option (List (String × Blob))
deriving Repr, DecidableEq

/-- The filesystem: an association list from paths to file data. -/
structure FS where
  files : List (Path × FileData)
deriving Repr, DecidableEq

def lookupP : List (Path × FileData) → Path → Option FileData
  | [], _ => none
  | e :: t, p => if e.1 = p then some e.2 else lookupP t p

def removeP : List (Path × FileData) → Path → List (Path × FileData)
  | [], _ => []
  | e :: t, p => if e.1 = p then removeP t p else e :: removeP t p

def FS.get (fs : FS) (p : Path) : Option FileData :=
  lookupP fs.files p

/-- `os.path.isfile`. -/
def FS.isfile (fs : FS) (p : Path) : Bool :=
  (fs.get p).isSome

/-- `os.remove`. -/
def FS.remove (fs : FS) (p : Path) : FS :=
  ⟨removeP fs.files p⟩

/-- Writing a file (`urlretrieve` target, `shutil.copyfileobj`,
`shutil.copyfile`). -/
def FS.write (fs : FS) (p : Path) (d : FileData) : FS :=
  ⟨(p, d) :: removeP fs.files p⟩

/-- `os.path.isdir`: some file lives strictly below `p`. -/
def FS.isdir (fs : FS) (p : Path) : Bool :=
  fs.files.any (fun e => decide (p ≠ e.1) && p.isPrefixOf e.1)

/-- `shutil.rmtree`: delete every file at or below `p`. -/
def FS.removeTree (fs : FS) (p : Path) : FS :=
  ⟨fs.files.filter (fun e => !(p.isPrefixOf e.1))⟩

/-! ## Network and event model -/

/-- Outcome of `urllib.request.urlretrieve`: the fetched file, a remote
missing-resource error (`HTTPError`), or a connection-level error
(`URLError`; `HTTPError` is its subclass and is matched first by the code,
so the two constructors are disjoint here). -/
inductive FetchResult where
  | ok (data : FileData)
  | httpError
  | urlError
deriving Repr

/-- Python exceptions the source does not catch in `chk_or_obtain`:
`ZipFile` on a missing file, on a non-zip file, and `ZipFile.open` on a
missing member. -/
inductive PyError where
  | fileNotFound
  | badZipFile
  | keyError
deriving Repr, DecidableEq

/-- Observable acquisition actions: an HTTP request for a URL, or an
extraction of a member from a zip archive. -/
inductive Event where
  | download (url : String)
  | extract (zip : Path) (entry : String)
deriving Repr, DecidableEq

structure Env where
  net : String → FetchResult

/-! ## Percent-encoding helpers (`urllib.parse`)

`unquote`, `quote` and `urlparse` are Python library functions used by
`chk_or_obtain` (lines 1082-1088); they are modelled here for URLs made of
ASCII characters, without fragments, which is the shape of every URL the
program builds. -/

def hexVal (c : Char) : Option Nat :=
  if '0' ≤ c ∧ c ≤ '9' then some (c.toNat - '0'.toNat)
  else if 'a' ≤ c ∧ c ≤ 'f' then some (c.toNat - 'a'.toNat + 10)
  else if 'A' ≤ c ∧ c ≤ 'F' then some (c.toNat - 'A'.toNat + 10)
  else none

def unquoteChars : List Char → List Char
  | [] => []
  | '%' :: a :: b :: rest =>
    match hexVal a, hexVal b with
    | some ha, some hb => Char.ofNat (16 * ha + hb) :: unquoteChars rest
    | _, _ => '%' :: unquoteChars (a :: b :: rest)
  | c :: rest => c :: unquoteChars rest

/-- `urllib.parse.unquote`: decode every valid `%XX` escape. -/
def unquote (s : String) : String :=
  ⟨unquoteChars s.data⟩

/-- Characters `urllib.parse.quote` leaves unescaped (with the default
`safe='/'`). -/
def quoteSafe (c : Char) : Bool :=
  ('A' ≤ c && c ≤ 'Z') || ('a' ≤ c && c ≤ 'z') || ('0' ≤ c && c ≤ '9') ||
  c = '_' || c = '.' || c = '-' || c = '~' || c = '/'

def hexDigit (n : Nat) : Char :=
  if n < 10 then Char.ofNat ('0'.toNat + n) else Char.ofNat ('A'.toNat + n - 10)

def quoteChars : List Char → List Char
  | [] => []
  | c :: rest =>
    if quoteSafe c then c :: quoteChars rest
    else '%' :: hexDigit (c.toNat / 16) :: hexDigit (c.toNat % 16) :: quoteChars rest

/-- `urllib.parse.quote` with its default `safe='/'`. -/
def quote (s : String) : String :=
  ⟨quoteChars s.data⟩

structure ParseResult where
  scheme : String
  netloc : String
  path : String
  query : String
deriving Repr, DecidableEq

def takeUntil (p : Char → Bool) : List Char → List Char × List Char
  | [] => ([], [])
  | c :: rest =>
    if p c then ([], c :: rest)
    else
      let r := takeUntil p rest
      (c :: r.1, r.2)

/-- `urllib.parse.urlparse`, for absolute `scheme://netloc/path?query` URLs
(no fragment, no params), which is the only shape the program feeds it. -/
def urlparse (s : String) : ParseResult :=
  let cs := s.data
  let sch := takeUntil (fun c => c = ':') cs
  match sch.2 with
  | ':' :: '/' :: '/' :: rest =>
    let nl := takeUntil (fun c => c = '/' || c = '?') rest
    let pq := takeUntil (fun c => c = '?') nl.2
    let q : List Char := match pq.2 with
      | '?' :: qs => qs
      | _ => []
    ⟨⟨sch.1⟩, ⟨nl.1⟩, ⟨pq.1⟩, ⟨q⟩⟩
  | _ =>
    let pq := takeUntil (fun c => c = '?') cs
    let q : List Char := match pq.2 with
      | '?' :: qs => qs
      | _ => []
    ⟨"", "", ⟨pq.1⟩, ⟨q⟩⟩

/-- Re-derivation of a URL in `chk_or_obtain`, lines 1084-1088: rebuild it
from `urlparse` components, percent-encoding path and query individually. -/
def reencode (s_url : String) : String :=
  let t := urlparse s_url
  let u := t.scheme ++ "://" ++ t.netloc ++ quote t.path
  if t.query ≠ "" then u ++ "?" ++ quote t.query else u

/-- The URL actually fetched by `chk_or_obtain`, lines 1082-1088: the URL is
re-derived exactly when `unquote` leaves its length unchanged. -/
def effective_url (s_url : String) : String :=
  let s_turl := unquote s_url
  if s_turl.length = s_url.length then reencode s_url else s_url

/-! ## `chk_file_hash` and `chk_or_obtain` -/

/-- `chk_file_hash` (lines 1115-1136): true iff the file exists and, when
both a hash and a size are specified, both match. -/
def chk_file_hash (fs : FS) (s_fpath : Path) (s_hash : String) (i_size : Nat) : Bool :=
  match fs.get s_fpath with
  | some fd =>
    if s_hash ≠ "" ∧ i_size ≠ 0 then
      if s_hash ≠ fd.blob.hash ∨ fd.blob.size ≠ i_size then false else true
    else true
  | none => false

/-- `chk_or_obtain` (lines 1044-1112).  Returns the final `b_ok`, the new
filesystem, and the acquisition events performed.  `Except.error` models the
exceptions the Python code does not catch (zip archive missing, not a zip,
member missing). -/
def chk_or_obtain (env : Env) (fs : FS) (s_fpath : Path) (s_hash : String)
    (i_size : Nat) (s_url : String) (s_zip_path : Path) (s_orig : String)
    (b_force : Bool) : Except PyError (Bool × FS × List Event) :=
  -- line 1068-1069: parent directory creation has no observable effect here
  -- lines 1071-1072
  let fs := if b_force && fs.isfile s_fpath then fs.remove s_fpath else fs
  -- line 1074
  let b_ok := chk_file_hash fs s_fpath s_hash i_size
  -- lines 1075-1077
  let fs := if !b_ok && fs.isfile s_fpath then fs.remove s_fpath else fs
  -- line 1079
  if !fs.isfile s_fpath then
    if s_url ≠ "" then
      -- lines 1082-1088
      let s_url := effective_url s_url
      -- lines 1090-1096: HTTPError is only logged; URLError is logged and
      -- sets b_ok to False, which the final re-check overwrites anyway
      match env.net s_url with
      | .ok data =>
        let fs := fs.write s_fpath data
        Except.ok (chk_file_hash fs s_fpath s_hash i_size, fs, [Event.download s_url])
      | .httpError =>
        Except.ok (chk_file_hash fs s_fpath s_hash i_size, fs, [Event.download s_url])
      | .urlError =>
        Except.ok (chk_file_hash fs s_fpath s_hash i_size, fs, [Event.download s_url])
    else if s_zip_path ≠ [] then
      -- lines 1097-1103
      match fs.get s_zip_path with
      | none => Except.error PyError.fileNotFound
      | some zfd =>
        match zfd.entries with
        | none => Except.error PyError.badZipFile
        | some es =>
          match es.lookup s_orig with
          | none => Except.error PyError.keyError
          | some blob =>
            let fs := fs.write s_fpath ⟨blob, none⟩
            Except.ok (chk_file_hash fs s_fpath s_hash i_size, fs,
              [Event.extract s_zip_path s_orig])
    else
      -- lines 1104-1106
      Except.ok (chk_file_hash fs s_fpath s_hash i_size, fs, [])
  else
    -- lines 1108-1110: the final re-check
    Except.ok (chk_file_hash fs s_fpath s_hash i_size, fs, [])

/-! ## Basic filesystem lemmas -/

theorem lookupP_removeP_self (l : List (Path × FileData)) (p : Path) :
    lookupP (removeP l p) p = none := by
  induction l with
  | nil => rfl
  | cons e t ih =>
    by_cases h : e.1 = p <;> simp [removeP, h, lookupP, ih]

theorem lookupP_removeP_ne (l : List (Path × FileData)) (p q : Path) (h : q ≠ p) :
    lookupP (removeP l p) q = lookupP l q := by
  induction l with
  | nil => rfl
  | cons e t ih =>
    by_cases he : e.1 = p
    · subst he
      simp [removeP, lookupP, Ne.symm h, ih]
    · simp [removeP, he, lookupP, ih]

theorem get_remove_self (fs : FS) (p : Path) : (fs.remove p).get p = none :=
  lookupP_removeP_self fs.files p

theorem get_remove_ne (fs : FS) (p q : Path) (h : q ≠ p) :
    (fs.remove p).get q = fs.get q :=
  lookupP_removeP_ne fs.files p q h

theorem get_write_self (fs : FS) (p : Path) (d : FileData) :
    (fs.write p d).get p = some d := by
  simp [FS.write, FS.get, lookupP]

theorem get_write_ne (fs : FS) (p q : Path) (d : FileData) (h : q ≠ p) :
    (fs.write p d).get q = fs.get q := by
  simp [FS.write, FS.get, lookupP, Ne.symm h]
  exact lookupP_removeP_ne fs.files p q h

theorem isfile_of_chk {fs : FS} {p : Path} {hh : String} {sz : Nat}
    (h : chk_file_hash fs p hh sz = true) : fs.isfile p = true := by
  unfold chk_file_hash at h
  unfold FS.isfile
  cases hg : fs.get p <;> simp [hg] at h ⊢

theorem chk_of_absent {fs : FS} {p : Path} (hh : String) (sz : Nat)
    (h : fs.isfile p = false) : chk_file_hash fs p hh sz = false := by
  unfold FS.isfile at h
  unfold chk_file_hash
  cases hg : fs.get p
  · rfl
  · rw [hg] at h
    simp at h

theorem chk_remove_self (fs : FS) (p : Path) (hh : String) (sz : Nat) :
    chk_file_hash (fs.remove p) p hh sz = false := by
  simp [chk_file_hash, get_remove_self]

/-! ## Lemmas about `chk_or_obtain` -/

/-- If the verify-first check passes, `chk_or_obtain` (without the force
flag) returns success at once: no download, no extraction, no filesystem
change. -/
theorem chk_or_obtain_short (env : Env) (fs : FS) (p : Path) (hh : String) (sz : Nat)
    (url : String) (zp : Path) (orig : String)
    (hchk : chk_file_hash fs p hh sz = true) :
    chk_or_obtain env fs p hh sz url zp orig false = Except.ok (true, fs, []) := by
  have hf : fs.isfile p = true := isfile_of_chk hchk
  unfold chk_or_obtain
  simp [hchk, hf]

/-- Whenever `chk_or_obtain` returns normally, the returned boolean is
exactly the result of `chk_file_hash` on the returned filesystem (the final
re-check at line 1108). -/
theorem chk_or_obtain_post (env : Env) (fs : FS) (p : Path) (hh : String) (sz : Nat)
    (url : String) (zp : Path) (orig : String) (bf b : Bool) (fs1 : FS) (ev : List Event)
    (h : chk_or_obtain env fs p hh sz url zp orig bf = Except.ok (b, fs1, ev)) :
    b = chk_file_hash fs1 p hh sz := by
  simp only [chk_or_obtain] at h
  repeat' split at h
  all_goals
    first
      | exact Except.noConfusion h
      | (simp only [Except.ok.injEq, Prod.mk.injEq] at h
         obtain ⟨hb, hfs, -⟩ := h
         subst hfs
         exact hb.symm)

/-! ## C1: verify-first short-circuit and idempotence -/

/-- **C1**: for every path, hash, size and source, if the file at the path
passes verification (`chk_file_hash`: it exists and the hash is empty, or
the size is 0, or both match), `chk_or_obtain` returns success with no
download and no extraction and an unchanged filesystem; consequently, after
any successful call, a second call with identical arguments returns success,
changes nothing, and fetches nothing. -/
theorem chk_or_obtain_verify_first_idempotent (env : Env) (fs : FS) (p : Path)
    (hh : String) (sz : Nat) (url : String) (zp : Path) (orig : String) :
    (chk_file_hash fs p hh sz = true →
      chk_or_obtain env fs p hh sz url zp orig false = Except.ok (true, fs, []))
    ∧ (∀ fs1 ev1,
      chk_or_obtain env fs p hh sz url zp orig false = Except.ok (true, fs1, ev1) →
      chk_or_obtain env fs1 p hh sz url zp orig false = Except.ok (true, fs1, [])) := by
  constructor
  · exact fun hchk => chk_or_obtain_short env fs p hh sz url zp orig hchk
  · intro fs1 ev1 hcall
    have hb := chk_or_obtain_post env fs p hh sz url zp orig false true fs1 ev1 hcall
    exact chk_or_obtain_short env fs1 p hh sz url zp orig hb.symm

def env0 : Env := ⟨fun _ => FetchResult.httpError⟩

def fs0 : FS := ⟨[(["f"], ⟨⟨"h", 1, [0]⟩, none⟩)]⟩

theorem chk_or_obtain_verify_first_idempotent_witness :
    chk_file_hash fs0 ["f"] "h" 1 = true
    ∧ chk_or_obtain env0 fs0 ["f"] "h" 1 "http://u" [] "" false
        = Except.ok (true, fs0, []) :=
  ⟨by decide,
   (chk_or_obtain_verify_first_idempotent env0 fs0 ["f"] "h" 1 "http://u" [] "").2 fs0 []
     ((chk_or_obtain_verify_first_idempotent env0 fs0 ["f"] "h" 1 "http://u" [] "").1
       (by decide))⟩

/-! ## C2: corruption self-heals -/

/-- **C2**: when a file exists at the target path but fails verification,
`chk_or_obtain` deletes it, performs exactly one acquisition from the given
URL (or, with no URL, from the given archive), and returns success exactly
when the re-acquired file passes the same hash+size verification; there is
no retry (exactly one download/extract event). -/
theorem chk_or_obtain_self_heal (env : Env) (fs : FS) (p : Path) (hh : String) (sz : Nat)
    (url : String) (zp : Path) (orig : String)
    (hfile : fs.isfile p = true) (hbad : chk_file_hash fs p hh sz = false) :
    (url ≠ "" →
      chk_or_obtain env fs p hh sz url zp orig false =
        match env.net (effective_url url) with
        | .ok data =>
          Except.ok (chk_file_hash ((fs.remove p).write p data) p hh sz,
            (fs.remove p).write p data, [Event.download (effective_url url)])
        | .httpError =>
          Except.ok (false, fs.remove p, [Event.download (effective_url url)])
        | .urlError =>
          Except.ok (false, fs.remove p, [Event.download (effective_url url)]))
    ∧ (url = "" → zp ≠ [] →
      chk_or_obtain env fs p hh sz url zp orig false =
        match (fs.remove p).get zp with
        | none => Except.error PyError.fileNotFound
        | some zfd =>
          match zfd.entries with
          | none => Except.error PyError.badZipFile
          | some es =>
            match es.lookup orig with
            | none => Except.error PyError.keyError
            | some blob =>
              Except.ok (chk_file_hash ((fs.remove p).write p ⟨blob, none⟩) p hh sz,
                (fs.remove p).write p ⟨blob, none⟩, [Event.extract zp orig])) := by
  have hrm : (fs.remove p).isfile p = false := by
    simp [FS.isfile, get_remove_self]
  have hchkrm : chk_file_hash (fs.remove p) p hh sz = false :=
    chk_remove_self fs p hh sz
  constructor
  · intro hurl
    simp only [chk_or_obtain]
    cases henv : env.net (effective_url url) <;>
      simp [hbad, hfile, hrm, hurl, henv, hchkrm]
  · intro hurl hzp
    subst hurl
    simp only [chk_or_obtain]
    simp [hbad, hfile, hrm, hzp]

def envC2 : Env := ⟨fun _ => FetchResult.ok ⟨⟨"good", 2, [1, 2]⟩, none⟩⟩

def fsC2 : FS := ⟨[(["f"], ⟨⟨"bad", 1, [9]⟩, none⟩)]⟩

theorem chk_or_obtain_self_heal_witness :
    chk_or_obtain envC2 fsC2 ["f"] "good" 2 "http://u/f" [] "" false
      = Except.ok (true, (fsC2.remove ["f"]).write ["f"] ⟨⟨"good", 2, [1, 2]⟩, none⟩,
          [Event.download "http://u/f"]) :=
  (chk_or_obtain_self_heal envC2 fsC2 ["f"] "good" 2 "http://u/f" [] ""
    (by decide) (by decide)).1 (by decide)

/-! ## C5: connection-level fetch errors are caught, not fatal -/

def envE : Env := ⟨fun _ => FetchResult.urlError⟩

/-- **C5 counterexample**: a connection-level error (`URLError`) does not
propagate out of `chk_or_obtain`: at this concrete input the call returns
normally with `b_ok = false` (the except-clause at lines 1094-1096 catches
the error and the final re-check reports failure), contradicting the claim
that a connection-level failure propagates and terminates the run. -/
theorem connection_error_caught_counterexample :
    chk_or_obtain envE ⟨[]⟩ ["f"] "h" 1 "http://h/f" [] "" false
      = Except.ok (false, ⟨[]⟩, [Event.download "http://h/f"]) := by
  rfl

/-- **C5 amended**: both fetch error kinds — missing resource (`HTTPError`)
and connection-level (`URLError`) — are caught inside `chk_or_obtain`; the
file stays absent, the post-acquisition re-check makes the call return
failure normally, and no exception escapes. -/
theorem chk_or_obtain_network_errors_nonfatal (env : Env) (fs : FS) (p : Path)
    (hh : String) (sz : Nat) (url : String) (zp : Path) (orig : String)
    (habs : fs.isfile p = false) (hurl : url ≠ "")
    (herr : env.net (effective_url url) = FetchResult.httpError ∨
            env.net (effective_url url) = FetchResult.urlError) :
    chk_or_obtain env fs p hh sz url zp orig false
      = Except.ok (false, fs, [Event.download (effective_url url)]) := by
  have hchk : chk_file_hash fs p hh sz = false := chk_of_absent hh sz habs
  simp only [chk_or_obtain]
  rcases herr with h | h <;> simp [hchk, habs, hurl, h]

theorem chk_or_obtain_network_errors_nonfatal_witness :
    chk_or_obtain envE ⟨[]⟩ ["g"] "h" 1 "http://h/g" [] "" false
      = Except.ok (false, ⟨[]⟩, [Event.download (effective_url "http://h/g")]) :=
  chk_or_obtain_network_errors_nonfatal envE ⟨[]⟩ ["g"] "h" 1 "http://h/g" [] ""
    (by rfl) (by decide) (Or.inr (by rfl))

/-! ## C8: URL re-derivation trigger -/

def env8 : Env := ⟨fun _ => FetchResult.ok ⟨⟨"d", 1, [7]⟩, none⟩⟩

/-- **C8 counterexample**: for the URL `http://h/a%20b`, percent-decoding
*changes* the length (14 to 12), yet `chk_or_obtain` fetches the URL exactly
as given — the code at line 1083 re-derives the URL when the decoded length
is *unchanged*, the opposite of the claimed trigger (and the re-derived form
would have differed). -/
theorem url_reencode_trigger_counterexample :
    (unquote "http://h/a%20b").length ≠ ("http://h/a%20b" : String).length
    ∧ chk_or_obtain env8 ⟨[]⟩ ["w"] "" 0 "http://h/a%20b" [] "" false
        = Except.ok (true, FS.write ⟨[]⟩ ["w"] ⟨⟨"d", 1, [7]⟩, none⟩,
            [Event.download "http://h/a%20b"])
    ∧ reencode "http://h/a%20b" ≠ "http://h/a%20b" :=
  ⟨by decide, by rfl, by decide⟩

/-- **C8 amended**: every URL-sourced acquisition fetches exactly one URL,
namely `effective_url url`; the URL is re-derived (percent-encoding path and
query of the parse individually) exactly when percent-decoding the URL
string does *not* change its length, and fetched as given otherwise. -/
theorem chk_or_obtain_url_reencode (env : Env) (fs : FS) (p : Path) (hh : String)
    (sz : Nat) (url : String) (zp : Path) (orig : String)
    (habs : fs.isfile p = false) (hurl : url ≠ "") :
    (∃ b fs1, chk_or_obtain env fs p hh sz url zp orig false
        = Except.ok (b, fs1, [Event.download (effective_url url)]))
    ∧ ((unquote url).length = url.length → effective_url url = reencode url)
    ∧ ((unquote url).length ≠ url.length → effective_url url = url) := by
  have hchk : chk_file_hash fs p hh sz = false := chk_of_absent hh sz habs
  refine ⟨?_, fun hl => by simp [effective_url, hl], fun hl => by simp [effective_url, hl]⟩
  cases henv : env.net (effective_url url)
  case ok data =>
    refine ⟨chk_file_hash (fs.write p data) p hh sz, fs.write p data, ?_⟩
    simp only [chk_or_obtain]
    simp [hchk, habs, hurl, henv]
  case httpError =>
    refine ⟨false, fs, ?_⟩
    simp only [chk_or_obtain]
    simp [hchk, habs, hurl, henv]
  case urlError =>
    refine ⟨false, fs, ?_⟩
    simp only [chk_or_obtain]
    simp [hchk, habs, hurl, henv]

theorem chk_or_obtain_url_reencode_witness :
    (∃ b fs1, chk_or_obtain env8 ⟨[]⟩ ["x"] "" 0 "http://h/c%20d" [] "" false
        = Except.ok (b, fs1, [Event.download (effective_url "http://h/c%20d")]))
    ∧ ((unquote "http://h/c%20d").length = ("http://h/c%20d" : String).length →
        effective_url "http://h/c%20d" = reencode "http://h/c%20d")
    ∧ ((unquote "http://h/c%20d").length ≠ ("http://h/c%20d" : String).length →
        effective_url "http://h/c%20d" = "http://h/c%20d") :=
  chk_or_obtain_url_reencode env8 ⟨[]⟩ ["x"] "" 0 "http://h/c%20d" [] ""
    (by rfl) (by decide)

/-! ## `load_db` -/

def keepToLastSlash (cs : List Char) : List Char :=
  (cs.reverse.dropWhile (fun c => c ≠ '/')).reverse

/-- `urllib.parse.urljoin`, modelled for joining a relative file name onto
an absolute http(s) base URL (the only use the program makes of it). -/
def urljoin (base rel : String) : String :=
  if base = "" then rel
  else
    let t := urlparse base
    t.scheme ++ "://" ++ t.netloc ++ ⟨keepToLastSlash t.path.data⟩ ++ rel

/-- `load_db` (lines 390-438): load a manifest document from the plain file
`<dirpath>/db/<name>`, or else from the entry named `<name>` inside the
archive `<dirpath>/db/<name>.zip` (downloading that archive via
`chk_or_obtain` when the plain file is absent).  The parsed document is its
byte content; `none` models the empty dictionary returned when nothing is
found. -/
def load_db (env : Env) (fs : FS) (s_dirpath : Path) (s_name : String)
    (s_urlbase : String) (s_hash : String) (i_size : Nat) (b_force : Bool) :
    Except PyError (Option (List Nat) × FS × List Event) :=
  -- lines 407-410
  let s_zipname := s_name ++ ".zip"
  let dir : Path := s_dirpath ++ ["db"]
  let s_json : Path := dir ++ [s_name]
  let s_jsonzip : Path := dir ++ [s_zipname]
  -- lines 412-413
  let fs := if b_force && fs.isfile s_jsonzip then fs.remove s_jsonzip else fs
  -- lines 415-419
  let step : Except PyError (FS × List Event) :=
    if !fs.isfile s_json then
      match chk_or_obtain env fs s_jsonzip s_hash i_size
          (urljoin s_urlbase s_zipname) [] "" false with
      | .ok (_b, fs1, ev) => .ok (fs1, ev)
      | .error e => .error e
    else .ok (fs, [])
  match step with
  | .error e => .error e
  | .ok (fs, ev) =>
    -- lines 421-438
    match fs.get s_json with
    | some fd => .ok (some fd.blob.content, fs, ev)
    | none =>
      match fs.get s_jsonzip with
      | some zfd =>
        match zfd.entries with
        | some es =>
          match es.lookup s_name with
          | some blob => .ok (some blob.content, fs, ev)
          | none => .ok (none, fs, ev)
        | none => .ok (none, fs, ev)
      | none => .ok (none, fs, ev)

theorem name_ne_zipname (s : String) : s ≠ s ++ ".zip" := by
  intro h
  have h2 : s.length = (s ++ ".zip").length := by rw [← h]
  rw [String.length_append] at h2
  have h3 : (".zip" : String).length = 4 := rfl
  omega

theorem json_ne_zip (d : Path) (s : String) :
    d ++ ["db", s] ≠ d ++ ["db", s ++ ".zip"] := by
  intro h
  have h2 : (["db", s] : Path) = ["db", s ++ ".zip"] := List.append_cancel_left h
  simp at h2
  exact name_ne_zipname s h2

/-- **C10**: with the force flag set, `load_db` deletes only the archive
`<dirpath>/db/<name>.zip`; a plain file at `<dirpath>/db/<name>` is left
unchanged, parsed and returned as-is, with no fetch performed, and no path
other than the archive's is affected. -/
theorem load_db_force_keeps_plain (env : Env) (fs : FS) (dir0 : Path)
    (name urlbase hh : String) (sz : Nat)
    (hplain : fs.isfile (dir0 ++ ["db", name]) = true) :
    load_db env fs dir0 name urlbase hh sz true
      = Except.ok ((fs.get (dir0 ++ ["db", name])).map (fun fd => fd.blob.content),
          (if fs.isfile (dir0 ++ ["db", name ++ ".zip"]) then
            fs.remove (dir0 ++ ["db", name ++ ".zip"]) else fs), [])
    ∧ (∀ q, q ≠ dir0 ++ ["db", name ++ ".zip"] →
        (if fs.isfile (dir0 ++ ["db", name ++ ".zip"]) then
            fs.remove (dir0 ++ ["db", name ++ ".zip"]) else fs).get q = fs.get q) := by
  have hne : dir0 ++ ["db", name] ≠ dir0 ++ ["db", name ++ ".zip"] :=
    json_ne_zip dir0 name
  obtain ⟨fd, hfd⟩ : ∃ fd, fs.get (dir0 ++ ["db", name]) = some fd := by
    have h1 := hplain
    unfold FS.isfile at h1
    exact Option.isSome_iff_exists.mp h1
  constructor
  · by_cases hz : fs.isfile (dir0 ++ ["db", name ++ ".zip"]) = true
    · have hj : (fs.remove (dir0 ++ ["db", name ++ ".zip"])).get
          (dir0 ++ ["db", name]) = some fd := by
        rw [get_remove_ne _ _ _ hne]
        exact hfd
      have hjf : (fs.remove (dir0 ++ ["db", name ++ ".zip"])).isfile
          (dir0 ++ ["db", name]) = true := by
        unfold FS.isfile
        rw [hj]
        rfl
      simp only [load_db]
      simp [hz, hjf, hj, hfd]
    · simp only [load_db]
      simp at hz
      simp [hz, hplain, hfd]
  · intro q hq
    by_cases hz : fs.isfile (dir0 ++ ["db", name ++ ".zip"]) = true
    · simp [hz, get_remove_ne _ _ _ hq]
    · simp at hz
      simp [hz]

def fsL : FS :=
  ⟨[(["c", "db", "m"], ⟨⟨"x", 1, [3]⟩, none⟩),
    (["c", "db", "m.zip"], ⟨⟨"z", 9, [4]⟩, some []⟩)]⟩

theorem load_db_force_keeps_plain_witness :
    load_db env0 fsL ["c"] "m" "http://b/" "" 0 true
      = Except.ok (some [3],
          (⟨[(["c", "db", "m"], ⟨⟨"x", 1, [3]⟩, none⟩)]⟩ : FS), []) :=
  (load_db_force_keeps_plain env0 fsL ["c"] "m" "http://b/" "" 0 (by decide)).1

/-! ## Manifest records and pack deployment -/

/-- One artifact record of a files/zip manifest (`d_files[s_file]`):
`kind`/`type`/`path` are read with `.get` defaults, the rest directly. -/
structure FileRec where
  kind : String
  type : String
  hash : String
  size : Nat
  url : String
  file : String
  path : List String
  tags : List Nat
deriving Repr, DecidableEq

/-- A files/zip manifest: the `files` mapping (in iteration order) and the
`tag_dictionary` (name to identifier, in iteration order). -/
structure Db where
  files : List (String × FileRec)
  tag_dictionary : List (String × Nat)
deriving Repr, DecidableEq

/-- `str.split('/')` on the character list. -/
def splitOnSlash (cs : List Char) : List (List Char) :=
  match cs with
  | [] => [[]]
  | c :: rest =>
    let r := splitOnSlash rest
    if c = '/' then [] :: r
    else
      match r with
      | [] => [[c]]
      | h :: t => (c :: h) :: t

/-- `s_file.split('/')[-1]`. -/
def lastName (s : String) : String :=
  ⟨(splitOnSlash s.data).getLastD []⟩

/-- The tag names `j_item` produced by the nested loops
`for i_item in tags: for j_item in d_tags: if d_tags[j_item] == i_item and
j_item in l_tags`, in iteration order. -/
def tagMatches (d_tags : List (String × Nat)) (l_tags : List String)
    (tags : List Nat) : List String :=
  tags.flatMap (fun i =>
    (d_tags.filter (fun e => decide (e.2 = i) && l_tags.contains e.1)).map
      (fun e => e.1))

/-- `shutil.copyfile` as called by `build_sd_files`: a missing source is the
`OSError` the code catches (returns `false`, filesystem unchanged). -/
def copyfile (fs : FS) (s_orig s_dest : Path) : Bool × FS :=
  match fs.get s_orig with
  | some fd => (true, fs.write s_dest fd)
  | none => (false, fs)

/-- Perform a list of `(source, destination)` copies in order; the boolean is
true iff every copy succeeded (`b_ok` is set to False on any `OSError` and
never reset). -/
def doCopies (fs : FS) (l : List (Path × Path)) : Bool × FS :=
  l.foldl (fun acc c =>
    let r := copyfile acc.2 c.1 c.2
    (acc.1 && r.1, r.2)) (true, fs)

/-- Result of processing one record in `build_sd_files`: per-record success,
new filesystem, and the `(source, destination)` copies attempted. -/
structure ItemResult where
  ok : Bool
  fs : FS
  copies : List (Path × Path)
deriving Repr, DecidableEq

/-- Loop body of `build_sd_files` (lines 796-867) for one `(s_file, rec)`.
The `copies` list records every `shutil.copyfile` attempt in order; the
destinations do not depend on the filesystem, so the attempted copies are
computed first and then executed in order. -/
def build_sd_files_item (d_tags : List (String × Nat)) (l_kinds l_types : List String)
    (b_mist : Bool) (l_tags : List String) (s_files_path s_out_path : Path)
    (s_out_subpath : String) (b_taggroups b_typegroups : Bool)
    (s_file : String) (rec : FileRec) (fs : FS) : ItemResult :=
  -- line 797
  let s_name := lastName s_file
  -- lines 800-802
  let s_sdpath : Path :=
    if b_mist && s_out_subpath = "cores" && rec.type = "bit" then
      s_out_path ++ ["mist"]
    else s_out_path ++ [s_out_subpath]
  if d_tags ≠ [] then
    -- line 804: fully tagged item, copied once per matching tag pair
    if l_kinds.contains rec.kind && l_types.contains rec.type then
      -- lines 805-806
      let s_sdpath :=
        if b_typegroups && !(b_mist && rec.type = "bit") then s_sdpath ++ [rec.type]
        else s_sdpath
      -- lines 807-824: note the declared path segments are NOT used here
      let copies := (tagMatches d_tags l_tags rec.tags).map (fun j =>
        let s_destpath := if b_taggroups then s_sdpath ++ [j] else s_sdpath
        (s_files_path ++ [s_name], s_destpath ++ [s_name]))
      let r := doCopies fs copies
      ⟨r.1, r.2, copies⟩
    -- lines 825-848: partially tagged item (empty kind); note b_taggroups is
    -- not consulted in this branch and the same destination repeats per match
    else if rec.kind = "" then
      let copies := (tagMatches d_tags l_tags rec.tags).map (fun _j =>
        let s_destpath := if rec.path ≠ [] then s_sdpath ++ rec.path else s_sdpath
        let s_orig := if rec.path ≠ [] then s_files_path ++ rec.path else s_files_path
        (s_orig ++ [s_name], s_destpath ++ [s_name]))
      let r := doCopies fs copies
      ⟨r.1, r.2, copies⟩
    else ⟨true, fs, []⟩
  else
    -- lines 850-867: no tag dictionary, always copy
    let s_sdpath := if rec.path ≠ [] then s_sdpath ++ rec.path else s_sdpath
    let s_orig := if rec.path ≠ [] then s_files_path ++ rec.path else s_files_path
    let copies := [(s_orig ++ [s_name], s_sdpath ++ [s_name])]
    let r := doCopies fs copies
    ⟨r.1, r.2, copies⟩

/-- Result of a whole pack deployment in `build_sd_files`: the returned
`b_ok`, the filesystem, the per-record success flags (in record order), and
all copies attempted. -/
structure PackResult where
  ok : Bool
  fs : FS
  flags : List Bool
  copies : List (Path × Path)
deriving Repr, DecidableEq

def build_sd_files_step (d_tags : List (String × Nat)) (l_kinds l_types : List String)
    (b_mist : Bool) (l_tags : List String) (s_files_path s_out_path : Path)
    (s_out_subpath : String) (b_taggroups b_typegroups : Bool)
    (acc : PackResult) (kv : String × FileRec) : PackResult :=
  let r := build_sd_files_item d_tags l_kinds l_types b_mist l_tags
    s_files_path s_out_path s_out_subpath b_taggroups b_typegroups kv.1 kv.2 acc.fs
  ⟨acc.ok && r.ok, r.fs, acc.flags ++ [r.ok], acc.copies ++ r.copies⟩

/-- The destructive-reset prelude of `build_sd_files` (lines 785-792):
unless `b_keep`, remove the `mist` subtree (when applicable) and then the
pack's own subtree. -/
def build_sd_files_clean (b_mist : Bool) (s_out_path : Path) (s_out_subpath : String)
    (b_keep : Bool) (fs : FS) : FS :=
  if !b_keep then
    let fs :=
      if b_mist && s_out_subpath = "cores" then
        if fs.isdir (s_out_path ++ ["mist"]) then fs.removeTree (s_out_path ++ ["mist"])
        else fs
      else fs
    if fs.isdir (s_out_path ++ [s_out_subpath]) then
      fs.removeTree (s_out_path ++ [s_out_subpath])
    else fs
  else fs

/-- `build_sd_files` (lines 762-869): optional destructive reset of the
destination subtree(s), then one copy pass per record. -/
def build_sd_files (d_files_db : Db) (l_kinds l_types : List String) (b_mist : Bool)
    (l_tags : List String) (s_files_path s_out_path : Path) (s_out_subpath : String)
    (b_taggroups b_typegroups b_keep : Bool) (fs : FS) : PackResult :=
  d_files_db.files.foldl
    (build_sd_files_step d_files_db.tag_dictionary l_kinds l_types b_mist l_tags
      s_files_path s_out_path s_out_subpath b_taggroups b_typegroups)
    ⟨true, build_sd_files_clean b_mist s_out_path s_out_subpath b_keep fs, [], []⟩

/-- State threaded through `build_sd_fromzip`: the running `b_ok` (which each
`chk_or_obtain` call overwrites), the filesystem, the events, and the
destinations passed to `chk_or_obtain`, in order. -/
structure ZipState where
  ok : Bool
  fs : FS
  events : List Event
  dests : List Path
deriving Repr, DecidableEq

/-- Loop body of `build_sd_fromzip` (lines 552-594) for one `(s_orig, rec)`.
Inside the tag loops the Python code keeps extending the same `s_dest`
variable, so the destination accumulates across matches; that mutable
variable is threaded here as the first component of the fold state. -/
def build_sd_fromzip_item (d_tags : List (String × Nat)) (l_kinds l_types : List String)
    (b_mist : Bool) (l_tags : List String) (s_zip_path : Path) (s_out_path : Path)
    (s_out_subpath : String) (b_taggroups b_typegroups : Bool) (env : Env)
    (s_orig : String) (rec : FileRec) (st : ZipState) : Except PyError ZipState :=
  -- lines 555-560
  let s_dest : Path :=
    if s_out_subpath ≠ "" then
      if b_mist && s_out_subpath = "cores" && rec.type = "bit" then
        s_out_path ++ ["mist"]
      else s_out_path ++ [s_out_subpath]
    else s_out_path
  -- lines 561-563
  let s_dest := if rec.path ≠ [] then s_dest ++ rec.path else s_dest
  if d_tags ≠ [] then
    -- line 568
    if l_kinds.contains rec.kind && l_types.contains rec.type then
      -- lines 569-570
      let s_dest :=
        if b_typegroups && !(b_mist && rec.type = "bit") then s_dest ++ [rec.type]
        else s_dest
      -- lines 572-587
      (rec.tags.foldl (fun (acc : Except PyError (Path × ZipState)) i =>
        d_tags.foldl (fun acc e =>
          match acc with
          | .error err => .error err
          | .ok (s_dest, st) =>
            if decide (e.2 = i) && l_tags.contains e.1 then
              let s_dest := if b_taggroups then s_dest ++ [e.1] else s_dest
              let s_dest := s_dest ++ [rec.file]
              match chk_or_obtain env st.fs s_dest rec.hash rec.size "" s_zip_path
                  s_orig false with
              | .ok (b, fs1, ev) =>
                .ok (s_dest, ⟨b, fs1, st.events ++ ev, st.dests ++ [s_dest]⟩)
              | .error err => .error err
            else .ok (s_dest, st)) acc)
        (Except.ok (s_dest, st))).map (fun r => r.2)
    else .ok st
  else
    -- lines 588-594
    let s_dest := s_dest ++ [rec.file]
    match chk_or_obtain env st.fs s_dest rec.hash rec.size "" s_zip_path s_orig false with
    | .ok (b, fs1, ev) => .ok ⟨b, fs1, st.events ++ ev, st.dests ++ [s_dest]⟩
    | .error err => .error err

/-- `build_sd_fromzip` (lines 530-596): `b_ok` starts False and is
overwritten by every `chk_or_obtain` call, so the returned boolean reflects
only the last extraction attempted. -/
def build_sd_fromzip (d_zip_bd : Db) (l_kinds l_types : List String) (b_mist : Bool)
    (l_tags : List String) (s_zip_path : Path) (s_out_path : Path)
    (s_out_subpath : String) (b_taggroups b_typegroups : Bool) (env : Env)
    (fs : FS) : Except PyError ZipState :=
  d_zip_bd.files.foldl (fun acc kv =>
    match acc with
    | .error e => .error e
    | .ok st =>
      build_sd_fromzip_item d_zip_bd.tag_dictionary l_kinds l_types b_mist l_tags
        s_zip_path s_out_path s_out_subpath b_taggroups b_typegroups env kv.1 kv.2 st)
    (Except.ok ⟨false, fs, [], []⟩)

/-! ## Concrete fixtures for the deployment claims -/

def envZ : Env := ⟨fun _ => FetchResult.httpError⟩

def zipFS : FS := ⟨[(["z"], ⟨⟨"zz", 1, [1]⟩, some [("k", ⟨"e", 1, [5]⟩)]⟩)]⟩

/-! ## C3: partial-tag bypass -/

def dbC3 : Db := ⟨[("k", ⟨"", "bit", "", 0, "", "f", [], [1]⟩)], [("util", 1)]⟩

/-- **C3 counterexample**: an artifact with empty `kind`, a tag mapping to
the requested name `util`, criteria `kinds=[a100t]`, `types=[bit]`: the
zip-pack routine selects nothing (no extraction, no write, `b_ok` stays
false), while the files-pack routine does copy it — `build_sd_fromzip` has
no partially-tagged branch, contradicting the claim that the bypass holds in
both deployment paths. -/
theorem tag_bypass_fromzip_counterexample :
    build_sd_fromzip dbC3 ["a100t"] ["bit"] false ["util"] ["z"] ["out"] "cores"
        false false envZ zipFS
      = Except.ok ⟨false, zipFS, [], []⟩
    ∧ (build_sd_files dbC3 ["a100t"] ["bit"] false ["util"] ["src"] ["out"] "cores"
        false false true zipFS).copies = [(["src", "k"], ["out", "cores", "k"])] :=
  ⟨rfl, rfl⟩

/-- **C3 amended**: in `build_sd_files` an artifact with empty `kind` (and a
non-empty tag dictionary) is copied at least once iff one of its tag
identifiers maps to a requested tag name, with `kinds`/`types` ignored (if
`"" ∈ kinds` and its type matches it takes the fully-tagged branch, which
imposes the same tag condition); in `build_sd_fromzip` there is no
partially-tagged branch at all: when `""` is not a requested kind such an
artifact is never selected, whatever its tags. -/
theorem tag_bypass_amended (d_tags : List (String × Nat)) (l_kinds l_types : List String)
    (b_mist : Bool) (l_tags : List String) (sfp sop : Path) (sub : String)
    (tg tyg : Bool) (s_file : String) (rec : FileRec) (fs : FS)
    (hdict : d_tags ≠ []) (hkind : rec.kind = "") :
    ((build_sd_files_item d_tags l_kinds l_types b_mist l_tags sfp sop sub tg tyg
        s_file rec fs).copies ≠ [] ↔ tagMatches d_tags l_tags rec.tags ≠ [])
    ∧ (l_kinds.contains "" = false →
        ∀ env zp st,
          build_sd_fromzip_item d_tags l_kinds l_types b_mist l_tags zp sop sub tg tyg
            env s_file rec st = Except.ok st) := by
  constructor
  · by_cases hg : "" ∈ l_kinds ∧ rec.type ∈ l_types
    · simp [build_sd_files_item, hdict, hkind, hg]
    · simp [build_sd_files_item, hdict, hkind, hg, List.replicate_eq_nil_iff,
        List.length_eq_zero]
  · intro hk env zp st
    have hnot : ¬ rec.kind ∈ l_kinds := by
      rw [hkind]
      simpa using hk
    simp [build_sd_fromzip_item, hdict, hnot]

theorem tag_bypass_amended_witness :
    ((build_sd_files_item [("util", 1)] ["a100t"] ["bit"] false ["util"] ["src"] ["out"]
        "cores" false false "k" ⟨"", "bit", "", 0, "", "f", [], [1]⟩ zipFS).copies ≠ []
      ↔ tagMatches [("util", 1)] ["util"] [1] ≠ [])
    ∧ build_sd_fromzip_item [("util", 1)] ["a100t"] ["bit"] false ["util"] ["z"] ["out"]
        "cores" false false envZ "k" ⟨"", "bit", "", 0, "", "f", [], [1]⟩
        ⟨false, zipFS, [], []⟩
      = Except.ok ⟨false, zipFS, [], []⟩ :=
  ⟨(tag_bypass_amended [("util", 1)] ["a100t"] ["bit"] false ["util"] ["src"] ["out"]
      "cores" false false "k" ⟨"", "bit", "", 0, "", "f", [], [1]⟩ zipFS
      (by decide) rfl).1,
   (tag_bypass_amended [("util", 1)] ["a100t"] ["bit"] false ["util"] ["src"] ["out"]
      "cores" false false "k" ⟨"", "bit", "", 0, "", "f", [], [1]⟩ zipFS
      (by decide) rfl).2 (by decide) envZ ["z"] ⟨false, zipFS, [], []⟩⟩

/-! ## C4: destination path composition order -/

def recC4 : FileRec := ⟨"a100t", "bit", "", 0, "", "core.bit", ["a", "b"], [1]⟩

/-- **C4 counterexample**: for a fully tagged artifact with `path=["a","b"]`,
`type="bit"`, matching tag name `"util"`, both grouping flags on and no
device-mode exemption, the zip-pack routine computes
`out/cores/a/b/bit/util/core.bit` — declared path *before* type — and the
files-pack routine computes `out/cores/bit/util/k`, ignoring the declared
path entirely; neither equals the claimed
`out/cores/bit/a/b/util/<file_name>`. -/
theorem dest_order_counterexample :
    ((build_sd_fromzip_item [("util", 1)] ["a100t"] ["bit"] false ["util"] ["z"] ["out"]
        "cores" true true envZ "k" recC4 ⟨false, zipFS, [], []⟩).map ZipState.dests
      = Except.ok [["out", "cores", "a", "b", "bit", "util", "core.bit"]])
    ∧ (["out", "cores", "a", "b", "bit", "util", "core.bit"] : Path)
        ≠ ["out", "cores", "bit", "a", "b", "util", "core.bit"]
    ∧ ((build_sd_files_item [("util", 1)] ["a100t"] ["bit"] false ["util"] ["src"] ["out"]
        "cores" true true "k" recC4 zipFS).copies
      = [(["src", "k"], ["out", "cores", "bit", "util", "k"])])
    ∧ (["out", "cores", "bit", "util", "k"] : Path)
        ≠ ["out", "cores", "bit", "a", "b", "util", "k"] :=
  ⟨rfl, by decide, rfl, by decide⟩

/-- **C4 amended**: with both grouping flags on and no device-mode
exemption, for a fully tagged artifact with declared path `[a, b]`, type
`"bit"` and single matching tag name `"util"`: `build_sd_fromzip` composes
the destination as pack subpath, declared path, type, tag, file name, and
`build_sd_files` composes it as pack subpath, type, tag, file name — the
declared path segments are not used in its fully-tagged branch. -/
theorem dest_path_composition_amended (out sfp : Path) (a b file k : String)
    (env : Env) (zp : Path) (st : ZipState) (fs : FS) :
    ((build_sd_fromzip_item [("util", 1)] ["a100t"] ["bit"] false ["util"] zp out
        "cores" true true env k ⟨"a100t", "bit", "h", 5, "", file, [a, b], [1]⟩ st).map
        ZipState.dests
      = match chk_or_obtain env st.fs (out ++ ["cores", a, b, "bit", "util", file])
          "h" 5 "" zp k false with
        | .ok _ => Except.ok (st.dests ++ [out ++ ["cores", a, b, "bit", "util", file]])
        | .error e => Except.error e)
    ∧ ((build_sd_files_item [("util", 1)] ["a100t"] ["bit"] false ["util"] sfp out
        "cores" true true k ⟨"a100t", "bit", "h", 5, "", file, [a, b], [1]⟩ fs).copies
      = [(sfp ++ [lastName k], out ++ ["cores", "bit", "util", lastName k])]) := by
  constructor
  · simp only [build_sd_fromzip_item]
    simp [Except.map]
    cases hc : chk_or_obtain env st.fs (out ++ ["cores", a, b, "bit", "util", file])
        "h" 5 "" zp k false with
    | error e => rfl
    | ok r =>
      obtain ⟨b1, fs1, ev⟩ := r
      rfl
  · simp [build_sd_files_item, tagMatches]

/-! ## C6: per-pack failure aggregation -/

theorem build_sd_files_fold_inv (d_tags : List (String × Nat)) (lk lt : List String)
    (bm : Bool) (ltags : List String) (sfp sop : Path) (sub : String) (tg tyg : Bool)
    (l : List (String × FileRec)) (acc : PackResult)
    (h1 : acc.ok = acc.flags.all id) :
    ((l.foldl (build_sd_files_step d_tags lk lt bm ltags sfp sop sub tg tyg) acc).ok
      = (l.foldl (build_sd_files_step d_tags lk lt bm ltags sfp sop sub tg tyg) acc).flags.all id)
    ∧ ((l.foldl (build_sd_files_step d_tags lk lt bm ltags sfp sop sub tg tyg) acc).flags.length
      = acc.flags.length + l.length) := by
  induction l generalizing acc with
  | nil => exact ⟨h1, rfl⟩
  | cons kv t ih =>
    rw [List.foldl_cons]
    have hstep : (build_sd_files_step d_tags lk lt bm ltags sfp sop sub tg tyg acc kv).ok
        = (build_sd_files_step d_tags lk lt bm ltags sfp sop sub tg tyg acc kv).flags.all id := by
      simp [build_sd_files_step, h1, List.all_append]
    obtain ⟨ha, hb⟩ := ih _ hstep
    refine ⟨ha, ?_⟩
    rw [hb]
    simp [build_sd_files_step]
    omega

def zipBugFS : FS :=
  ⟨[(["z"], ⟨⟨"zz", 1, [1]⟩,
      some [("k1", ⟨"bad", 3, [1, 2, 3]⟩), ("k2", ⟨"good2", 5, [1, 2, 3, 4, 5]⟩)]⟩)]⟩

def dbBug : Db :=
  ⟨[("k1", ⟨"", "", "good1", 3, "", "f1", [], []⟩),
    ("k2", ⟨"", "", "good2", 5, "", "f2", [], []⟩)], []⟩

def fsBugFinal : FS :=
  ⟨[(["out", "cores", "f2"], ⟨⟨"good2", 5, [1, 2, 3, 4, 5]⟩, none⟩),
    (["out", "cores", "f1"], ⟨⟨"bad", 3, [1, 2, 3]⟩, none⟩),
    (["z"], ⟨⟨"zz", 1, [1]⟩,
      some [("k1", ⟨"bad", 3, [1, 2, 3]⟩), ("k2", ⟨"good2", 5, [1, 2, 3, 4, 5]⟩)]⟩)]⟩

/-- **C6**: in `build_sd_files` the pack result is failure iff at least one
processed record failed (the returned `b_ok` equals the conjunction of all
per-record flags) and every record is processed (one flag per record, no
abort).  In `build_sd_fromzip`, however, `b_ok` is overwritten by every
`chk_or_obtain` call: at the concrete input below the first artifact fails
its hash check (the extracted file keeps the wrong digest, as the final
`chk_file_hash` conjunct shows) and yet the pack returns `true` because the
second, last extraction succeeded — contradicting the claim for the zip
routine, and its own docstring ("True if the extraction finishes without
problems"). -/
theorem pack_failure_aggregation (db : Db) (lk lt : List String) (bm : Bool)
    (ltags : List String) (sfp sop : Path) (sub : String) (tg tyg keep : Bool) (fs : FS) :
    ((build_sd_files db lk lt bm ltags sfp sop sub tg tyg keep fs).ok
      = (build_sd_files db lk lt bm ltags sfp sop sub tg tyg keep fs).flags.all id)
    ∧ ((build_sd_files db lk lt bm ltags sfp sop sub tg tyg keep fs).flags.length
      = db.files.length)
    ∧ (build_sd_fromzip dbBug ["a100t"] ["bit"] false ["util"] ["z"] ["out"] "cores"
        false false envZ zipBugFS
      = Except.ok ⟨true, fsBugFinal,
          [Event.extract ["z"] "k1", Event.extract ["z"] "k2"],
          [["out", "cores", "f1"], ["out", "cores", "f2"]]⟩)
    ∧ chk_file_hash fsBugFinal ["out", "cores", "f1"] "good1" 3 = false := by
  have H := build_sd_files_fold_inv db.tag_dictionary lk lt bm ltags sfp sop sub tg tyg
    db.files ⟨true, build_sd_files_clean bm sop sub keep fs, [], []⟩ rfl
  exact ⟨H.1, by simpa using H.2, rfl, by decide⟩

/-! ## C7: multi-tag deployment -/

def recC7 : FileRec := ⟨"a100t", "bit", "", 0, "", "f", [], [1, 2]⟩

/-- **C7**: with tag grouping on, `build_sd_files` deploys an artifact whose
two tags map to two requested names into the two sibling tag subdirectories
of the same base destination; `build_sd_fromzip`, which keeps extending the
same destination variable, instead computes the second destination *nested
inside the first copy's file path* (`out/cores/util/f/console/f`), not the
sibling `out/cores/console/f` — on a real filesystem the second
`mkdir`/extraction would try to treat the just-written file `util/f` as a
directory. -/
theorem multi_tag_deployment (sfp out : Path) (k : String) (fs : FS) :
    ((build_sd_files_item [("util", 1), ("console", 2)] ["a100t"] ["bit"] false
        ["util", "console"] sfp out "cores" true false k
        ⟨"a100t", "bit", "h", 3, "", "f", [], [1, 2]⟩ fs).copies
      = [(sfp ++ [lastName k], out ++ ["cores", "util", lastName k]),
         (sfp ++ [lastName k], out ++ ["cores", "console", lastName k])])
    ∧ ((build_sd_fromzip_item [("util", 1), ("console", 2)] ["a100t"] ["bit"] false
        ["util", "console"] ["z"] ["out"] "cores" true false envZ "k" recC7
        ⟨false, zipFS, [], []⟩).map ZipState.dests
      = Except.ok [["out", "cores", "util", "f"],
                   ["out", "cores", "util", "f", "console", "f"]])
    ∧ (["out", "cores", "util", "f", "console", "f"] : Path)
        ≠ ["out", "cores", "console", "f"] := by
  refine ⟨?_, rfl, by decide⟩
  simp [build_sd_files_item, tagMatches]

/-! ## C9: full-replace semantics -/

theorem copyfile_frame (fs : FS) (o d q : Path) (h : q ≠ d) :
    (copyfile fs o d).2.get q = fs.get q := by
  unfold copyfile
  cases hg : fs.get o
  · rfl
  · simp
    exact get_write_ne _ _ _ _ h

theorem doCopies_foldl_frame (l : List (Path × Path)) (acc : Bool × FS) (q : Path)
    (h : q ∉ l.map Prod.snd) :
    (l.foldl (fun acc c =>
      let r := copyfile acc.2 c.1 c.2
      (acc.1 && r.1, r.2)) acc).2.get q = acc.2.get q := by
  induction l generalizing acc with
  | nil => rfl
  | cons c tl ih =>
    simp only [List.map_cons, List.mem_cons, not_or] at h
    obtain ⟨h1, h2⟩ := h
    rw [List.foldl_cons]
    rw [ih _ h2]
    exact copyfile_frame acc.2 c.1 c.2 q h1

theorem doCopies_frame (fs : FS) (l : List (Path × Path)) (q : Path)
    (h : q ∉ l.map Prod.snd) :
    (doCopies fs l).2.get q = fs.get q :=
  doCopies_foldl_frame l (true, fs) q h

/-- In every branch, the filesystem produced by `build_sd_files_item` is the
result of performing exactly its `copies`. -/
theorem build_sd_files_item_shape (d_tags : List (String × Nat)) (lk lt : List String)
    (bm : Bool) (ltags : List String) (sfp sop : Path) (sub : String) (tg tyg : Bool)
    (k : String) (rec : FileRec) (fs : FS) :
    (build_sd_files_item d_tags lk lt bm ltags sfp sop sub tg tyg k rec fs).fs
      = (doCopies fs (build_sd_files_item d_tags lk lt bm ltags sfp sop sub tg tyg k rec fs).copies).2 := by
  unfold build_sd_files_item
  repeat' split
  all_goals rfl

theorem build_sd_files_item_frame (d_tags : List (String × Nat)) (lk lt : List String)
    (bm : Bool) (ltags : List String) (sfp sop : Path) (sub : String) (tg tyg : Bool)
    (k : String) (rec : FileRec) (fs : FS) (q : Path)
    (h : q ∉ (build_sd_files_item d_tags lk lt bm ltags sfp sop sub tg tyg k rec fs).copies.map Prod.snd) :
    (build_sd_files_item d_tags lk lt bm ltags sfp sop sub tg tyg k rec fs).fs.get q = fs.get q := by
  rw [build_sd_files_item_shape]
  exact doCopies_frame fs _ q h

theorem build_sd_files_foldl_copies_mono (d_tags : List (String × Nat)) (lk lt : List String)
    (bm : Bool) (ltags : List String) (sfp sop : Path) (sub : String) (tg tyg : Bool)
    (l : List (String × FileRec)) (acc : PackResult) :
    ∃ t, (l.foldl (build_sd_files_step d_tags lk lt bm ltags sfp sop sub tg tyg) acc).copies
      = acc.copies ++ t := by
  induction l generalizing acc with
  | nil => exact ⟨[], by simp⟩
  | cons kv tl ih =>
    rw [List.foldl_cons]
    obtain ⟨t, ht⟩ := ih (build_sd_files_step d_tags lk lt bm ltags sfp sop sub tg tyg acc kv)
    refine ⟨(build_sd_files_item d_tags lk lt bm ltags sfp sop sub tg tyg kv.1 kv.2 acc.fs).copies ++ t, ?_⟩
    rw [ht]
    simp [build_sd_files_step]

theorem build_sd_files_foldl_frame (d_tags : List (String × Nat)) (lk lt : List String)
    (bm : Bool) (ltags : List String) (sfp sop : Path) (sub : String) (tg tyg : Bool)
    (l : List (String × FileRec)) (acc : PackResult) (q : Path)
    (h : q ∉ (l.foldl (build_sd_files_step d_tags lk lt bm ltags sfp sop sub tg tyg) acc).copies.map Prod.snd) :
    (l.foldl (build_sd_files_step d_tags lk lt bm ltags sfp sop sub tg tyg) acc).fs.get q
      = acc.fs.get q := by
  induction l generalizing acc with
  | nil => rfl
  | cons kv tl ih =>
    rw [List.foldl_cons] at h ⊢
    rw [ih _ h]
    obtain ⟨t, ht⟩ := build_sd_files_foldl_copies_mono d_tags lk lt bm ltags sfp sop sub tg tyg
      tl (build_sd_files_step d_tags lk lt bm ltags sfp sop sub tg tyg acc kv)
    rw [ht] at h
    simp only [build_sd_files_step, List.map_append, List.mem_append, not_or] at h
    exact build_sd_files_item_frame d_tags lk lt bm ltags sfp sop sub tg tyg kv.1 kv.2 acc.fs q
      (by simpa using h.1.2)

theorem lookupP_filterTree_none (l : List (Path × FileData)) (p q : Path)
    (hpq : p.isPrefixOf q = true) :
    lookupP (l.filter (fun e => !(p.isPrefixOf e.1))) q = none := by
  induction l with
  | nil => rfl
  | cons e t ih =>
    by_cases hk : p.isPrefixOf e.1 = true
    · simp [List.filter_cons, hk, ih]
    · have hne : e.1 ≠ q := by
        intro h
        rw [h] at hk
        exact hk hpq
      simp [List.filter_cons, hk, lookupP, hne, ih]

theorem get_removeTree_none (fs : FS) (p q : Path) (hpq : p.isPrefixOf q = true) :
    (fs.removeTree p).get q = none :=
  lookupP_filterTree_none fs.files p q hpq

theorem lookupP_filter_none (l : List (Path × FileData)) (f : Path × FileData → Bool)
    (q : Path) (h : lookupP l q = none) : lookupP (l.filter f) q = none := by
  induction l with
  | nil => rfl
  | cons e t ih =>
    unfold lookupP at h
    by_cases he : e.1 = q
    · rw [if_pos he] at h
      exact absurd h (by simp)
    · rw [if_neg he] at h
      by_cases hf : f e = true
      · simp [List.filter_cons, hf, lookupP, he, ih h]
      · simp [List.filter_cons, hf, ih h]

theorem get_removeTree_none_mono (fs : FS) (p q : Path) (h : fs.get q = none) :
    (fs.removeTree p).get q = none :=
  lookupP_filter_none fs.files _ q h

theorem lookupP_some_mem (l : List (Path × FileData)) (q : Path) (fd : FileData)
    (h : lookupP l q = some fd) : (q, fd) ∈ l := by
  induction l with
  | nil => exact absurd h (by simp [lookupP])
  | cons e t ih =>
    unfold lookupP at h
    by_cases he : e.1 = q
    · rw [if_pos he] at h
      injection h with h2
      have h3 : (q, fd) = e := by
        rw [← he, ← h2]
      rw [h3]
      exact List.mem_cons_self e t
    · rw [if_neg he] at h
      exact List.mem_cons_of_mem e (ih h)

theorem isdir_false_get_none (fs : FS) (p q : Path) (hd : fs.isdir p = false)
    (hpq : p.isPrefixOf q = true) (hne : q ≠ p) : fs.get q = none := by
  cases hg : fs.get q with
  | none => rfl
  | some fd =>
    exfalso
    have hmem : (q, fd) ∈ fs.files := lookupP_some_mem fs.files q fd hg
    unfold FS.isdir at hd
    rw [List.any_eq_false] at hd
    have h2 := hd _ hmem
    simp [hpq] at h2
    exact hne.symm h2

theorem ite_isdir_removeTree_none_mono (g : FS) (p q : Path) (hq : g.get q = none) :
    (if g.isdir p then g.removeTree p else g).get q = none := by
  by_cases hd : g.isdir p = true
  · simp only [hd, if_true]
    exact get_removeTree_none_mono g p q hq
  · simp only [Bool.not_eq_true] at hd
    simp only [hd, Bool.false_eq_true, if_false]
    exact hq

theorem ite_isdir_removeTree_none (g : FS) (p q : Path)
    (hpq : p.isPrefixOf q = true) (hne : q ≠ p) :
    (if g.isdir p then g.removeTree p else g).get q = none := by
  by_cases hd : g.isdir p = true
  · simp only [hd, if_true]
    exact get_removeTree_none g p q hpq
  · simp only [Bool.not_eq_true] at hd
    simp only [hd, Bool.false_eq_true, if_false]
    exact isdir_false_get_none g p q hd hpq hne

/-- After the destructive-reset prelude with `b_keep = false`, every path
strictly below the pack subtree is gone, and, in device mode with subpath
`cores`, every path strictly below the `mist` subtree is gone as well; with
`b_keep = true` nothing is deleted. -/
theorem build_sd_files_clean_spec (bm : Bool) (sop : Path) (sub : String) (fs : FS) :
    (build_sd_files_clean bm sop sub true fs = fs)
    ∧ (∀ q, (sop ++ [sub]).isPrefixOf q = true → q ≠ sop ++ [sub] →
        (build_sd_files_clean bm sop sub false fs).get q = none)
    ∧ (bm = true → sub = "cores" →
        ∀ q, (sop ++ ["mist"]).isPrefixOf q = true → q ≠ sop ++ ["mist"] →
        (build_sd_files_clean bm sop sub false fs).get q = none) := by
  refine ⟨by simp [build_sd_files_clean], ?_, ?_⟩
  · intro q hpq hne
    have hrw : build_sd_files_clean bm sop sub false fs
        = (let g := if bm && sub = "cores" then
              (if fs.isdir (sop ++ ["mist"]) then fs.removeTree (sop ++ ["mist"]) else fs)
            else fs
           if g.isdir (sop ++ [sub]) then g.removeTree (sop ++ [sub]) else g) := rfl
    rw [hrw]
    exact ite_isdir_removeTree_none _ _ _ hpq hne
  · intro hbm hsubv q hpq hne
    subst hbm
    subst hsubv
    have hrw : build_sd_files_clean true sop "cores" false fs
        = (let g := if fs.isdir (sop ++ ["mist"]) then fs.removeTree (sop ++ ["mist"]) else fs
           if g.isdir (sop ++ ["cores"]) then g.removeTree (sop ++ ["cores"]) else g) := rfl
    rw [hrw]
    exact ite_isdir_removeTree_none_mono _ _ _
      (ite_isdir_removeTree_none _ _ _ hpq hne)

/-- **C9**: with `b_keep` set, `build_sd_files` deletes nothing — every path
it does not copy to keeps its previous content.  With `b_keep` unset, every
path strictly inside `output_root/pack_subpath` that this pack run does not
itself write ends up absent (the subtree is recursively deleted before the
copy pass), and, when device mode is on and the pack subpath is `cores`, the
same holds for `output_root/mist`. -/
theorem full_replace_semantics (db : Db) (lk lt : List String) (bm : Bool)
    (ltags : List String) (sfp sop : Path) (sub : String) (tg tyg : Bool) (fs : FS) :
    (∀ q, q ∉ (build_sd_files db lk lt bm ltags sfp sop sub tg tyg true fs).copies.map Prod.snd →
      (build_sd_files db lk lt bm ltags sfp sop sub tg tyg true fs).fs.get q = fs.get q)
    ∧ (∀ q, (sop ++ [sub]).isPrefixOf q = true → q ≠ sop ++ [sub] →
      q ∉ (build_sd_files db lk lt bm ltags sfp sop sub tg tyg false fs).copies.map Prod.snd →
      (build_sd_files db lk lt bm ltags sfp sop sub tg tyg false fs).fs.get q = none)
    ∧ (bm = true → sub = "cores" →
      ∀ q, (sop ++ ["mist"]).isPrefixOf q = true → q ≠ sop ++ ["mist"] →
      q ∉ (build_sd_files db lk lt bm ltags sfp sop sub tg tyg false fs).copies.map Prod.snd →
      (build_sd_files db lk lt bm ltags sfp sop sub tg tyg false fs).fs.get q = none) := by
  obtain ⟨hkeep, hsub, hmist⟩ := build_sd_files_clean_spec bm sop sub fs
  refine ⟨?_, ?_, ?_⟩
  · intro q hq
    unfold build_sd_files at hq ⊢
    rw [build_sd_files_foldl_frame _ _ _ _ _ _ _ _ _ _ _ _ _ hq]
    show (build_sd_files_clean bm sop sub true fs).get q = fs.get q
    rw [hkeep]
  · intro q hpq hne hq
    unfold build_sd_files at hq ⊢
    rw [build_sd_files_foldl_frame _ _ _ _ _ _ _ _ _ _ _ _ _ hq]
    exact hsub q hpq hne
  · intro hbm hsubv q hpq hne hq
    unfold build_sd_files at hq ⊢
    rw [build_sd_files_foldl_frame _ _ _ _ _ _ _ _ _ _ _ _ _ hq]
    exact hmist hbm hsubv q hpq hne

def fs9 : FS :=
  ⟨[(["out", "cores", "old"], ⟨⟨"o", 1, [1]⟩, none⟩),
    (["out", "keepme"], ⟨⟨"p", 1, [2]⟩, none⟩)]⟩

def db9 : Db := ⟨[], []⟩

theorem full_replace_semantics_witness :
    (build_sd_files db9 ["a100t"] ["bit"] false ["util"] ["src"] ["out"] "cores"
        false false true fs9).fs.get ["out", "cores", "old"] = fs9.get ["out", "cores", "old"]
    ∧ (build_sd_files db9 ["a100t"] ["bit"] false ["util"] ["src"] ["out"] "cores"
        false false false fs9).fs.get ["out", "cores", "old"] = none :=
  ⟨(full_replace_semantics db9 ["a100t"] ["bit"] false ["util"] ["src"] ["out"] "cores"
      false false fs9).1 ["out", "cores", "old"] (by decide),
   (full_replace_semantics db9 ["a100t"] ["bit"] false ["util"] ["src"] ["out"] "cores"
      false false fs9).2.1 ["out", "cores", "old"] (by decide) (by decide) (by decide)⟩

end ZX3
